import Mathlib

/-!
Shallow embedding of the Discord bot in src/index.js: the persistent store
(Postgres tables messages and user_memory), the short-term context provider
(fetchShortHistory), the long-term memory manager (fetchUserSummary,
upsertUserSummary), the reply generator (generateReply) and the messageCreate
orchestrator, together with theorems about the memory-augmented reply
pipeline.

Modelling conventions:
- JavaScript strings are lists of characters (Str).  The JS whitespace class
  used by String.prototype.trim and the regex \s is modelled on its ASCII
  part (space, tab, newline, carriage return, vertical tab, form feed).
- The SQL tables are Lean lists.  messages rows are kept in ascending id
  order (ids come from the monotone bigserial counter, and inserts append),
  so the query ORDER BY id DESC is the reverse of the stored list; the
  well-formedness predicate DBWF states this invariant and is preserved by
  every insert.
- The OpenAI chat-completion capability is an explicit function parameter
  from a call record (model, messages, temperature) to either a thrown
  error or a response; temperatures 0.2 and 0.4 are represented exactly
  as rationals.
- A JS exception (a failed await, an undefined property access such as
  resp.choices[0] on an empty array, or .trim() on null) is Except.error.
- The messageCreate handler returns, besides the final store state, the
  ordered list of texts sent to the channel, whether console.error ran, and
  the arguments passed to generateReply and upsertUserSummary (none when the
  corresponding call never happened).
-/

abbrev Str := List Char

/-- JS whitespace test (ASCII part of the \s class used by trim and the
regex in the handler). -/
def isWs (c : Char) : Bool :=
  c == ' ' || c == '\t' || c == '\n' || c == '\r' || c == '\x0b' || c == '\x0c'

/-- JS String.prototype.trim: drop leading and trailing whitespace. -/
def jsTrim (s : Str) : Str :=
  ((s.dropWhile isWs).reverse.dropWhile isWs).reverse

/-- JS s.startsWith of one exclamation mark, used by the addressed check. -/
def startsBang : Str → Bool
  | [] => false
  | c :: _ => c == '!'

/-- JS s.replace of a regex matching one leading exclamation mark plus
following whitespace, by the empty string. -/
def stripBang : Str → Str
  | [] => []
  | c :: rest => if c == '!' then rest.dropWhile isWs else c :: rest

/-- JS s.replace(pat, rep) with a plain-string pattern: replace the first
occurrence only (leftmost match position). -/
def replaceFirst (pat rep : Str) : Str → Str
  | [] => if pat = [] then rep else []
  | c :: rest =>
    if pat <+: (c :: rest) then rep ++ (c :: rest).drop pat.length
    else c :: replaceFirst pat rep rest

/-- The plain user-mention token of discord, as interpolated by the handler. -/
def plainMention (botId : Str) : Str :=
  '<' :: '@' :: (botId ++ [ '>' ])

/-- The nickname-form user-mention token of discord (never interpolated by
the handler, but it does make mentions.has true). -/
def nickMention (botId : Str) : Str :=
  '<' :: '@' :: '!' :: (botId ++ [ '>' ])

/-- Roles allowed by the messages table check constraint. -/
inductive Role
  | user
  | assistant
deriving DecidableEq

/-- Roles occurring in chat-completion prompts. -/
inductive PRole
  | system
  | user
  | assistant
deriving DecidableEq

def Role.toPRole : Role → PRole
  | Role.user => PRole.user
  | Role.assistant => PRole.assistant

structure ChatMsg where
  role : PRole
  content : Str
deriving DecidableEq

/-- One element of resp.choices; content is null-able in the API. -/
structure LMChoice where
  content : Option Str
deriving DecidableEq

structure LMResp where
  choices : List LMChoice
deriving DecidableEq

/-- One call to openai.chat.completions.create. -/
structure LMCall where
  model : Str
  messages : List ChatMsg
  temperature : ℚ
deriving DecidableEq

/-- The chat-completion capability: a call either throws or returns a
response. -/
abbrev LMFun := LMCall → Except Unit LMResp

def gpt4oMini : Str := "gpt-4o-mini".data

/-- One row of the messages table. -/
structure Turn where
  id : Nat
  guildId : Option Str
  channelId : Str
  userId : Str
  role : Role
  content : Str
  createdAt : Nat
deriving DecidableEq

/-- The persistent store: messages rows in ascending id order, the bigserial
counter, and the user_memory rows (userId, summary, updatedAt). -/
structure DB where
  messages : List Turn
  nextId : Nat
  userMemory : List (Str × Str × Nat)
deriving DecidableEq

def emptyDB : DB := ⟨[], 1, []⟩

/-- INSERT INTO messages: the id comes from the bigserial counter. -/
def insertTurn (db : DB) (g : Option Str) (c u : Str) (r : Role) (content : Str) (now : Nat) : DB :=
  { messages := db.messages ++ [ ⟨db.nextId, g, c, u, r, content, now⟩ ]
    nextId := db.nextId + 1
    userMemory := db.userMemory }

/-- Rows of the messages table for one channel (in ascending id order). -/
def channelTurns (db : DB) (c : Str) : List Turn :=
  db.messages.filter (fun t => t.channelId = c)

/-- SELECT role, content FROM messages WHERE channel_id = c ORDER BY id DESC
LIMIT n: newest-first retrieval. -/
def recentRows (db : DB) (c : Str) (n : Nat) : List (Role × Str) :=
  (((channelTurns db c).reverse).take n).map (fun t => (t.role, t.content))

/-- fetchShortHistory: retrieve the newest-first page and reverse it to
oldest-to-newest order for the prompt. -/
def fetchShortHistory (db : DB) (c : Str) (n : Nat) : List (Role × Str) :=
  (recentRows db c n).reverse

def lookupSummary : List (Str × Str × Nat) → Str → Option (Str × Nat)
  | [], _ => none
  | (k, s, t) :: rest, u => if k = u then some (s, t) else lookupSummary rest u

/-- fetchUserSummary: rows[0]?.summary || "" (empty string when absent; a
stored empty summary is also returned as the empty string). -/
def fetchUserSummary (db : DB) (u : Str) : Str :=
  match lookupSummary db.userMemory u with
  | none => []
  | some (s, _) => s

def setSummaryList : List (Str × Str × Nat) → Str → Str → Nat → List (Str × Str × Nat)
  | [], u, s, now => [ (u, s, now) ]
  | (k, v, t) :: rest, u, s, now =>
    if k = u then (u, s, now) :: rest else (k, v, t) :: setSummaryList rest u s now

/-- INSERT ... ON CONFLICT (user_id) DO UPDATE SET summary, updated_at = now():
insert-or-overwrite keyed on the unique user id, refreshing the timestamp
unconditionally. -/
def dbSetSummary (db : DB) (u s : Str) (now : Nat) : DB :=
  { messages := db.messages
    nextId := db.nextId
    userMemory := setSummaryList db.userMemory u s now }

/-- Store invariant: message rows are in strictly ascending id order and all
ids are below the bigserial counter. -/
def DBWF (db : DB) : Prop :=
  List.Pairwise (fun a b => a.id < b.id) db.messages ∧
  ∀ t ∈ db.messages, t.id < db.nextId

instance (db : DB) : Decidable (DBWF db) := by
  unfold DBWF
  infer_instance

lemma emptyDB_wf : DBWF emptyDB := by
  constructor
  · exact List.Pairwise.nil
  · intro t ht
    simp [emptyDB] at ht

lemma insertTurn_wf (db : DB) (g : Option Str) (c u : Str) (r : Role) (content : Str) (now : Nat)
    (h : DBWF db) : DBWF (insertTurn db g c u r content now) := by
  obtain ⟨hp, hb⟩ := h
  constructor
  · rw [insertTurn]
    apply List.pairwise_append.2
    refine ⟨hp, List.pairwise_singleton _ _, ?_⟩
    intro a ha b hbm
    simp at hbm
    subst hbm
    exact hb a ha
  · intro t ht
    rw [insertTurn] at ht
    simp at ht
    rcases ht with ht | ht
    · exact Nat.lt_succ_of_lt (hb t ht)
    · subst ht
      exact Nat.lt_succ_self _

/-- System message of upsertUserSummary (the summarization instruction). -/
def summarySystem : Str :=
  "You write ONE short bullet capturing stable, helpful facts about the user for future chats.\nKeep it under 40 words. If nothing new, return the existing summary unchanged.".data

/-- User message of upsertUserSummary: the template literal interpolating the
current summary (JS current || \"(none)\": the falsy empty string becomes the
explicit placeholder) and the new message text. -/
def summaryUserPrompt (current text : Str) : Str :=
  "Current summary: \"".data ++ (if current = [] then "(none)".data else current) ++
  "\"\nNew message from user: \"".data ++ text ++
  "\"\nReturn: one-sentence updated summary ONLY.".data

def tempSummary : ℚ := 2 / 10

def tempReply : ℚ := 4 / 10

/-- The chat-completion call issued by upsertUserSummary. -/
def summaryCall (current text : Str) : LMCall :=
  { model := gpt4oMini
    messages := [ ⟨PRole.system, summarySystem⟩, ⟨PRole.user, summaryUserPrompt current text⟩ ]
    temperature := tempSummary }

/-- upsertUserSummary(user_id, interactionText): read the current summary,
ask the capability for an updated one, store its trimmed text as a full
replacement with a fresh timestamp, and return it.  A thrown capability
error (or a response with no choices, or a null content, on which the JS
property access would throw) propagates as Except.error; nothing is stored
in that case. -/
def upsertUserSummary (lm : LMFun) (db : DB) (now : Nat) (u text : Str) : Except Unit (DB × Str) :=
  match lm (summaryCall (fetchUserSummary db u) text) with
  | Except.error _ => Except.error ()
  | Except.ok r =>
    match r.choices.head? with
    | none => Except.error ()
    | some ch =>
      match ch.content with
      | none => Except.error ()
      | some s => Except.ok (dbSetSummary db u (jsTrim s) now, jsTrim s)

/-- Fixed persona system message of generateReply. -/
def personaSystem : Str :=
  "You are an upbeat, helpful coding assistant living in a small Discord server called \"jeljel6’s Dev Server\".\nKeep answers concise, accurate, and friendly. Prefer code blocks and minimal steps.".data

/-- The long-term-memory line of the reply prompt (JS summary || \"(none)\"). -/
def memoryLine (summary : Str) : Str :=
  "User long-term memory: ".data ++ (if summary = [] then "(none)".data else summary)

/-- The ordered message sequence generateReply assembles: persona first, then
the memory line, then the short-term turns oldest-to-newest, then the new
user message last. -/
def replyPrompt (db : DB) (c u ut : Str) : List ChatMsg :=
  ⟨PRole.system, personaSystem⟩ ::
  ⟨PRole.system, memoryLine (fetchUserSummary db u)⟩ ::
  ((fetchShortHistory db c 10).map (fun m => ⟨Role.toPRole m.1, m.2⟩) ++ [ ⟨PRole.user, ut⟩ ])

/-- The chat-completion call issued by generateReply. -/
def replyCall (db : DB) (c u ut : Str) : LMCall :=
  { model := gpt4oMini
    messages := replyPrompt db c u ut
    temperature := tempReply }

/-- generateReply: invoke the capability on the assembled prompt and return
the trimmed content of the first choice.  A thrown call, an empty choices
array (resp.choices[0] is undefined and .message throws) or a null content
(.trim() throws) propagates as Except.error; a present content is returned
trimmed, with no emptiness check. -/
def generateReply (lm : LMFun) (db : DB) (c u ut : Str) : Except Unit Str :=
  match lm (replyCall db c u ut) with
  | Except.error _ => Except.error ()
  | Except.ok r =>
    match r.choices.head? with
    | none => Except.error ()
    | some ch =>
      match ch.content with
      | none => Except.error ()
      | some s => Except.ok (jsTrim s)

/-- One inbound message event.  mentionsBot is msg.mentions.has(client.user),
the platform-parsed mention flag (true for both the plain and the
nickname-form token). -/
structure Msg where
  authorBot : Bool
  guildId : Option Str
  channelId : Str
  authorId : Str
  content : Str
  mentionsBot : Bool
deriving DecidableEq

/-- The addressed check: mentioned, or the raw content starts with the
prefix marker. -/
def isAddressed (msg : Msg) : Bool :=
  msg.mentionsBot || startsBang msg.content

/-- userText: strip a leading prefix marker with following whitespace, remove
the first occurrence of the plain mention token, and trim. -/
def cleanUserText (botId content : Str) : Str :=
  jsTrim (replaceFirst (plainMention botId) [] (stripBang content))

/-- The user turn the handler inserts for an inbound message. -/
def mkUserTurn (db : DB) (now : Nat) (msg : Msg) : Turn :=
  ⟨db.nextId, msg.guildId, msg.channelId, msg.authorId, Role.user, msg.content, now⟩

/-- Store state after the unconditional user-turn insert. -/
def dbAfterUserTurn (db : DB) (now : Nat) (msg : Msg) : DB :=
  insertTurn db msg.guildId msg.channelId msg.authorId Role.user msg.content now

/-- Store state after the assistant-turn insert that follows a successful
reply (the author column is the bot id). -/
def dbAfterAssistantTurn (db : DB) (now : Nat) (msg : Msg) (botId rep : Str) : DB :=
  insertTurn (dbAfterUserTurn db now msg) msg.guildId msg.channelId botId Role.assistant rep now

/-- The fixed apology sent by the catch block. -/
def apologyText : Str :=
  "Oops—something went wrong. Try again in a moment.".data

/-- Observable outcome of one messageCreate invocation: the final store, the
texts sent to the channel in order, whether console.error ran, the userText
passed to generateReply (none when generation was never invoked), and the
text passed to upsertUserSummary (none when the memory update was never
invoked). -/
structure HandlerResult where
  db : DB
  sent : List Str
  logged : Bool
  generateInput : Option Str
  summaryInput : Option Str
deriving DecidableEq

/-- The messageCreate handler: ignore bot authors; insert the user turn
unconditionally; stop if unaddressed; compute userText and stop if empty;
otherwise generate a reply inside try/catch — on success send it, insert the
assistant turn and update the long-term summary from the raw content; any
thrown error reaches the catch, which logs it and sends the fixed apology. -/
def messageCreate (lm : LMFun) (botId : Str) (db : DB) (now : Nat) (msg : Msg) : HandlerResult :=
  if msg.authorBot = true then ⟨db, [], false, none, none⟩
  else if isAddressed msg = false then ⟨dbAfterUserTurn db now msg, [], false, none, none⟩
  else if cleanUserText botId msg.content = [] then
    ⟨dbAfterUserTurn db now msg, [], false, none, none⟩
  else
    match generateReply lm (dbAfterUserTurn db now msg) msg.channelId msg.authorId
        (cleanUserText botId msg.content) with
    | Except.error _ =>
      ⟨dbAfterUserTurn db now msg, [ apologyText ], true,
        some (cleanUserText botId msg.content), none⟩
    | Except.ok rep =>
      match upsertUserSummary lm (dbAfterAssistantTurn db now msg botId rep) now
          msg.authorId msg.content with
      | Except.error _ =>
        ⟨dbAfterAssistantTurn db now msg botId rep, [ rep, apologyText ], true,
          some (cleanUserText botId msg.content), some msg.content⟩
      | Except.ok p =>
        ⟨p.fst, [ rep ], false, some (cleanUserText botId msg.content), some msg.content⟩

/-- Taking the first n elements of the reverse and reversing again selects
the last n elements of the original list, in original order. -/
lemma reverse_take_reverse {α : Type} (l : List α) (n : Nat) :
    (l.reverse.take n).reverse = l.drop (l.length - n) := by
  rcases Nat.le_total n l.length with h | h
  · have h2 : l.reverse = (l.drop (l.length - n)).reverse ++ (l.take (l.length - n)).reverse := by
      rw [← List.reverse_append, List.take_append_drop]
    rw [h2, List.take_left' (by rw [List.length_reverse, List.length_drop]; omega),
      List.reverse_reverse]
  · rw [Nat.sub_eq_zero_of_le h, List.drop_zero,
      List.take_of_length_le (by rw [List.length_reverse]; exact h), List.reverse_reverse]

lemma stripBang_eq_self {s : Str} (h : startsBang s = false) : stripBang s = s := by
  cases s with
  | nil => rfl
  | cons c rest =>
    rw [startsBang] at h
    rw [stripBang, if_neg (by simp [h])]

lemma replaceFirst_eq_self {pat rep : Str} : ∀ {s : Str}, ¬ (pat <:+: s) → replaceFirst pat rep s = s
  | [], h => by
    rw [replaceFirst, if_neg]
    intro hpat
    subst hpat
    exact h List.nil_infix
  | c :: rest, h => by
    rw [replaceFirst, if_neg (fun hp => h hp.isInfix),
      replaceFirst_eq_self (fun hi => h (List.infix_cons hi))]

/-- An occurrence of a nonempty pattern whose characters all fail the
predicate survives dropWhile. -/
lemma infix_dropWhile_not {p : Char → Bool} {tok : Str} (hne : tok ≠ [])
    (htok : ∀ c ∈ tok, p c = false) :
    ∀ {s : Str}, tok <:+: s → tok <:+: s.dropWhile p
  | [], h => by rwa [List.dropWhile_nil]
  | c :: rest, h => by
    rw [List.dropWhile_cons]
    split
    · rename_i hpc
      apply infix_dropWhile_not hne htok
      rcases List.infix_cons_iff.1 h with hp | hi
      · exfalso
        match tok, hne, htok, hp with
        | t :: ts, _, htok, hp =>
          have h1 : t = c := (List.cons_prefix_cons.1 hp).1
          have h2 := htok t (List.mem_cons_self t ts)
          rw [h1, hpc] at h2
          cases h2
      · exact hi
    · exact h

/-- An occurrence of a nonempty all-non-whitespace pattern survives trim. -/
lemma infix_jsTrim {tok s : Str} (hne : tok ≠ []) (htok : ∀ c ∈ tok, isWs c = false)
    (h : tok <:+: s) : tok <:+: jsTrim s := by
  rw [jsTrim]
  have h1 : tok <:+: s.dropWhile isWs := infix_dropWhile_not hne htok h
  have h2 : tok.reverse <:+: (s.dropWhile isWs).reverse := List.reverse_infix.2 h1
  have h3 : tok.reverse <:+: (s.dropWhile isWs).reverse.dropWhile isWs :=
    infix_dropWhile_not (by simpa using hne)
      (fun c hc => htok c (List.mem_reverse.1 hc)) h2
  have h4 := List.reverse_infix.2 h3
  rwa [List.reverse_reverse] at h4

/-- A successful upsertUserSummary leaves the messages table and the id
counter untouched. -/
lemma upsertUserSummary_ok {lm : LMFun} {db : DB} {now : Nat} {u text : Str} {p : DB × Str}
    (h : upsertUserSummary lm db now u text = Except.ok p) :
    p.fst.messages = db.messages ∧ p.fst.nextId = db.nextId := by
  unfold upsertUserSummary at h
  split at h
  · cases h
  · split at h
    · cases h
    · split at h
      · cases h
      · cases h
        exact ⟨rfl, rfl⟩

lemma lookupSummary_setSummaryList (l : List (Str × Str × Nat)) (u s : Str) (now : Nat) :
    lookupSummary (setSummaryList l u s now) u = some (s, now) := by
  induction l with
  | nil => simp [setSummaryList, lookupSummary]
  | cons hd tl ih =>
    obtain ⟨k, v, t⟩ := hd
    rw [setSummaryList]
    by_cases hk : k = u
    · rw [if_pos hk, lookupSummary, if_pos rfl]
    · rw [if_neg hk, lookupSummary, if_neg hk]
      exact ih

/-- The last element of the reply prompt is the new user message. -/
lemma replyPrompt_getLast (db : DB) (c u ut : Str) :
    (replyPrompt db c u ut).getLast? = some ⟨PRole.user, ut⟩ := by
  rw [replyPrompt, List.getLast?_cons_cons, ← List.cons_append, List.getLast?_concat]

lemma nickMention_ne_nil (botId : Str) : nickMention botId ≠ [] := by
  rw [nickMention]
  exact List.cons_ne_nil _ _

lemma nickMention_not_ws {botId : Str} (hid : ∀ c ∈ botId, isWs c = false) :
    ∀ c ∈ nickMention botId, isWs c = false := by
  intro c hc
  rw [nickMention] at hc
  simp at hc
  rcases hc with rfl | rfl | rfl | h | rfl
  · decide
  · decide
  · decide
  · exact hid c h
  · decide

def botId9 : Str := "9".data

def botId7 : Str := "7".data

def chanC : Str := "c".data

def userU : Str := "u".data

def replyYo : Str := "yo".data

/-- C2: fetchShortHistory(channelId, N) returns at most N rows; it is the
exact reversal of the newest-first retrieval recentRows; on a channel with
no stored turns it returns the empty sequence; and, under the store
invariant, it is exactly the projection of the last N turns of the channel
in ascending-id (oldest-to-newest) order, whose ids are strictly
increasing. -/
theorem fetchShortHistory_spec (db : DB) (c : Str) (n : Nat) (hwf : DBWF db) :
    (fetchShortHistory db c n).length ≤ n ∧
    fetchShortHistory db c n = (recentRows db c n).reverse ∧
    (channelTurns db c = [] → fetchShortHistory db c n = []) ∧
    fetchShortHistory db c n =
      ((channelTurns db c).drop ((channelTurns db c).length - n)).map
        (fun t => (t.role, t.content)) ∧
    List.Pairwise (fun a b => a.id < b.id)
      ((channelTurns db c).drop ((channelTurns db c).length - n)) := by
  have hkey : fetchShortHistory db c n =
      ((channelTurns db c).drop ((channelTurns db c).length - n)).map
        (fun t => (t.role, t.content)) := by
    rw [fetchShortHistory, recentRows, ← List.map_reverse, reverse_take_reverse]
  refine ⟨?_, rfl, ?_, hkey, ?_⟩
  · rw [fetchShortHistory, List.length_reverse, recentRows, List.length_map]
    exact List.length_take_le _ _
  · intro hemp
    rw [hkey, hemp]
    simp
  · exact List.Pairwise.sublist (List.drop_sublist _ _)
      (List.Pairwise.sublist (List.filter_sublist _) hwf.1)

def dbW2 : DB :=
  ⟨[ ⟨1, none, chanC, userU, Role.user, "a".data, 0⟩,
     ⟨2, none, "d".data, userU, Role.user, "b".data, 0⟩,
     ⟨3, none, chanC, userU, Role.assistant, "e".data, 0⟩,
     ⟨4, none, chanC, userU, Role.user, "f".data, 0⟩ ], 5, []⟩

/-- C2 witness: the short-term context theorem applied to a concrete store
of four turns, two channels, limit 2. -/
theorem fetchShortHistory_spec_witness :
    DBWF dbW2 ∧
    ((fetchShortHistory dbW2 chanC 2).length ≤ 2 ∧
     fetchShortHistory dbW2 chanC 2 = (recentRows dbW2 chanC 2).reverse ∧
     (channelTurns dbW2 chanC = [] → fetchShortHistory dbW2 chanC 2 = []) ∧
     fetchShortHistory dbW2 chanC 2 =
       ((channelTurns dbW2 chanC).drop ((channelTurns dbW2 chanC).length - 2)).map
         (fun t => (t.role, t.content)) ∧
     List.Pairwise (fun a b => a.id < b.id)
       ((channelTurns dbW2 chanC).drop ((channelTurns dbW2 chanC).length - 2))) :=
  ⟨by decide, fetchShortHistory_spec dbW2 chanC 2 (by decide)⟩

/-- C5: upsertUserSummary reads the current summary; when the capability
returns a completion with text s, it stores jsTrim s as a full replacement
of the user's record with the timestamp refreshed to now (also when
jsTrim s equals the old summary, since the write is unconditional), returns
jsTrim s, and an empty current summary is presented to the summarizer as
the explicit (none) placeholder inside the prompt. -/
theorem upsertUserSummary_spec (lm : LMFun) (db : DB) (now : Nat) (u text s : Str)
    (h : lm (summaryCall (fetchUserSummary db u) text) = Except.ok ⟨[ ⟨some s⟩ ]⟩) :
    upsertUserSummary lm db now u text =
      Except.ok (dbSetSummary db u (jsTrim s) now, jsTrim s) ∧
    lookupSummary (dbSetSummary db u (jsTrim s) now).userMemory u = some (jsTrim s, now) ∧
    (fetchUserSummary db u = [] →
      "(none)".data <:+: summaryUserPrompt (fetchUserSummary db u) text) := by
  refine ⟨?_, lookupSummary_setSummaryList db.userMemory u (jsTrim s) now, ?_⟩
  · rw [upsertUserSummary, h]
    rfl
  · intro he
    rw [he, summaryUserPrompt, if_pos rfl]
    exact ⟨ "Current summary: \"".data,
      "\"\nNew message from user: \"".data ++ text ++
        "\"\nReturn: one-sentence updated summary ONLY.".data,
      by simp [List.append_assoc]⟩

def spacedHi : Str := " hi ".data

def lmSpacedHi : LMFun := fun _ => Except.ok ⟨[ ⟨some spacedHi⟩ ]⟩

def textRust : Str := "I like Rust".data

/-- C5 witness: a concrete capability returning a padded summary for a user
with no stored record. -/
theorem upsertUserSummary_spec_witness :
    lmSpacedHi (summaryCall (fetchUserSummary emptyDB userU) textRust) =
      Except.ok ⟨[ ⟨some spacedHi⟩ ]⟩ ∧
    (upsertUserSummary lmSpacedHi emptyDB 0 userU textRust =
       Except.ok (dbSetSummary emptyDB userU (jsTrim spacedHi) 0, jsTrim spacedHi) ∧
     lookupSummary (dbSetSummary emptyDB userU (jsTrim spacedHi) 0).userMemory userU =
       some (jsTrim spacedHi, 0) ∧
     (fetchUserSummary emptyDB userU = [] →
       "(none)".data <:+: summaryUserPrompt (fetchUserSummary emptyDB userU) textRust)) :=
  ⟨rfl, upsertUserSummary_spec lmSpacedHi emptyDB 0 userU textRust spacedHi rfl⟩

/-- C6: the capability call issued by generateReply carries exactly the
assembled prompt: the fixed persona instruction first, the long-term-memory
line second (with the (none) marker when the stored summary is empty), then
the short-term turns as returned by fetchShortHistory (oldest-to-newest),
and the new user message last. -/
theorem replyPrompt_spec (db : DB) (c u ut : Str) :
    replyCall db c u ut = ⟨gpt4oMini, replyPrompt db c u ut, tempReply⟩ ∧
    (replyPrompt db c u ut).head? = some ⟨PRole.system, personaSystem⟩ ∧
    (replyPrompt db c u ut)[1]? = some ⟨PRole.system, memoryLine (fetchUserSummary db u)⟩ ∧
    memoryLine [] = "User long-term memory: (none)".data ∧
    (replyPrompt db c u ut).drop 2 =
      (fetchShortHistory db c 10).map (fun m => ⟨Role.toPRole m.1, m.2⟩) ++
        [ ⟨PRole.user, ut⟩ ] ∧
    (replyPrompt db c u ut).getLast? = some ⟨PRole.user, ut⟩ :=
  ⟨rfl, rfl, by rw [replyPrompt]; simp, by decide, rfl, replyPrompt_getLast db c u ut⟩

/-- C3: every inbound non-bot message is persisted as a user turn before
the addressing check (the final store always starts with the prior rows
followed by that user turn, on every branch of the handler), and an
unaddressed message terminates the pipeline right after that persistence:
nothing is sent, nothing is logged, generateReply is never invoked, no
assistant turn is inserted and no memory update happens. -/
theorem messageCreate_persists_user_turn (lm : LMFun) (botId : Str) (db : DB) (now : Nat)
    (msg : Msg) (hb : msg.authorBot = false) :
    (∃ rest, (messageCreate lm botId db now msg).db.messages =
      db.messages ++ mkUserTurn db now msg :: rest) ∧
    (isAddressed msg = false →
      messageCreate lm botId db now msg = ⟨dbAfterUserTurn db now msg, [], false, none, none⟩) := by
  constructor
  · rw [messageCreate, if_neg (by simp [hb])]
    by_cases ha : isAddressed msg = false
    · rw [if_pos ha]
      exact ⟨[], rfl⟩
    · rw [if_neg ha]
      by_cases he : cleanUserText botId msg.content = []
      · rw [if_pos he]
        exact ⟨[], rfl⟩
      · rw [if_neg he]
        cases hgen : generateReply lm (dbAfterUserTurn db now msg) msg.channelId msg.authorId
            (cleanUserText botId msg.content) with
        | error e =>
          exact ⟨[], rfl⟩
        | ok rep =>
          dsimp only
          cases hup : upsertUserSummary lm (dbAfterAssistantTurn db now msg botId rep) now
              msg.authorId msg.content with
          | error e =>
            refine ⟨[ ⟨db.nextId + 1, msg.guildId, msg.channelId, botId, Role.assistant, rep, now⟩ ],
              ?_⟩
            simp [dbAfterAssistantTurn, dbAfterUserTurn, insertTurn, mkUserTurn]
          | ok p =>
            refine ⟨[ ⟨db.nextId + 1, msg.guildId, msg.channelId, botId, Role.assistant, rep, now⟩ ],
              ?_⟩
            dsimp only
            rw [(upsertUserSummary_ok hup).1]
            simp [dbAfterAssistantTurn, dbAfterUserTurn, insertTurn, mkUserTurn]
  · intro ha
    rw [messageCreate, if_neg (by simp [hb]), if_pos ha]

def msgUnaddressed : Msg := ⟨false, none, chanC, userU, "hello".data, false⟩

def lmErr : LMFun := fun _ => Except.error ()

/-- C3 witness: a concrete unaddressed message. -/
theorem messageCreate_persists_user_turn_witness :
    msgUnaddressed.authorBot = false ∧
    ((∃ rest, (messageCreate lmErr botId9 emptyDB 0 msgUnaddressed).db.messages =
       emptyDB.messages ++ mkUserTurn emptyDB 0 msgUnaddressed :: rest) ∧
     (isAddressed msgUnaddressed = false →
       messageCreate lmErr botId9 emptyDB 0 msgUnaddressed =
         ⟨dbAfterUserTurn emptyDB 0 msgUnaddressed, [], false, none, none⟩)) :=
  ⟨rfl, messageCreate_persists_user_turn lmErr botId9 emptyDB 0 msgUnaddressed rfl⟩

/-- C4: when generation fails on an addressed message with non-empty
userText, the handler sends exactly the fixed apology, logs the error,
keeps the already-persisted user turn as the only new row (no assistant
turn), and performs no memory update. -/
theorem messageCreate_generation_failure (lm : LMFun) (botId : Str) (db : DB) (now : Nat)
    (msg : Msg) (hb : msg.authorBot = false) (ha : isAddressed msg = true)
    (hne : cleanUserText botId msg.content ≠ [])
    (hgen : generateReply lm (dbAfterUserTurn db now msg) msg.channelId msg.authorId
      (cleanUserText botId msg.content) = Except.error ()) :
    messageCreate lm botId db now msg =
      ⟨dbAfterUserTurn db now msg, [ apologyText ], true,
        some (cleanUserText botId msg.content), none⟩ ∧
    (dbAfterUserTurn db now msg).messages = db.messages ++ [ mkUserTurn db now msg ] := by
  constructor
  · rw [messageCreate, if_neg (by simp [hb]), if_neg (by simp [ha]), if_neg hne, hgen]
  · rfl

def msgBangHi : Msg := ⟨false, none, chanC, userU, "! hi".data, false⟩

/-- C4 witness: a concrete addressed message with a failing capability. -/
theorem messageCreate_generation_failure_witness :
    (msgBangHi.authorBot = false ∧ isAddressed msgBangHi = true ∧
     cleanUserText botId9 msgBangHi.content ≠ [] ∧
     generateReply lmErr (dbAfterUserTurn emptyDB 0 msgBangHi) msgBangHi.channelId
       msgBangHi.authorId (cleanUserText botId9 msgBangHi.content) = Except.error ()) ∧
    (messageCreate lmErr botId9 emptyDB 0 msgBangHi =
       ⟨dbAfterUserTurn emptyDB 0 msgBangHi, [ apologyText ], true,
         some (cleanUserText botId9 msgBangHi.content), none⟩ ∧
     (dbAfterUserTurn emptyDB 0 msgBangHi).messages =
       emptyDB.messages ++ [ mkUserTurn emptyDB 0 msgBangHi ]) :=
  ⟨⟨rfl, rfl, by decide, rfl⟩,
   messageCreate_generation_failure lmErr botId9 emptyDB 0 msgBangHi rfl rfl (by decide) rfl⟩

/-- C7: on a successfully answered addressed message the memory update is
invoked with the original raw inbound content (msg.content, prefix marker
and mention token included), not with the cleaned userText and not with the
generated reply. -/
theorem messageCreate_summary_uses_raw_content (lm : LMFun) (botId : Str) (db : DB) (now : Nat)
    (msg : Msg) (rep : Str) (hb : msg.authorBot = false) (ha : isAddressed msg = true)
    (hne : cleanUserText botId msg.content ≠ [])
    (hgen : generateReply lm (dbAfterUserTurn db now msg) msg.channelId msg.authorId
      (cleanUserText botId msg.content) = Except.ok rep) :
    (messageCreate lm botId db now msg).summaryInput = some msg.content := by
  rw [messageCreate, if_neg (by simp [hb]), if_neg (by simp [ha]), if_neg hne, hgen]
  dsimp only
  cases hup : upsertUserSummary lm (dbAfterAssistantTurn db now msg botId rep) now
      msg.authorId msg.content with
  | error e => rfl
  | ok p => rfl

def lmYo : LMFun := fun _ => Except.ok ⟨[ ⟨some replyYo⟩ ]⟩

/-- C7 witness: a concrete successful exchange; the raw content keeps its
prefix marker while the cleaned userText does not. -/
theorem messageCreate_summary_uses_raw_content_witness :
    (msgBangHi.authorBot = false ∧ isAddressed msgBangHi = true ∧
     cleanUserText botId9 msgBangHi.content ≠ [] ∧
     generateReply lmYo (dbAfterUserTurn emptyDB 0 msgBangHi) msgBangHi.channelId
       msgBangHi.authorId (cleanUserText botId9 msgBangHi.content) = Except.ok replyYo) ∧
    (messageCreate lmYo botId9 emptyDB 0 msgBangHi).summaryInput = some msgBangHi.content :=
  ⟨⟨rfl, rfl, by decide, rfl⟩,
   messageCreate_summary_uses_raw_content lmYo botId9 emptyDB 0 msgBangHi replyYo rfl rfl
     (by decide) rfl⟩

/-- C8: an addressed message whose text cleans to empty aborts after the
user-turn persistence: no send, no log, no generation call, no assistant
turn, no memory update. -/
theorem messageCreate_empty_userText_aborts (lm : LMFun) (botId : Str) (db : DB) (now : Nat)
    (msg : Msg) (hb : msg.authorBot = false) (ha : isAddressed msg = true)
    (he : cleanUserText botId msg.content = []) :
    messageCreate lm botId db now msg = ⟨dbAfterUserTurn db now msg, [], false, none, none⟩ ∧
    (dbAfterUserTurn db now msg).messages = db.messages ++ [ mkUserTurn db now msg ] := by
  constructor
  · rw [messageCreate, if_neg (by simp [hb]), if_neg (by simp [ha]), if_pos he]
  · rfl

def msgBareBang : Msg := ⟨false, none, chanC, userU, "!".data, false⟩

/-- C8 witness: the bare prefix marker cleans to the empty string. -/
theorem messageCreate_empty_userText_aborts_witness :
    (msgBareBang.authorBot = false ∧ isAddressed msgBareBang = true ∧
     cleanUserText botId9 msgBareBang.content = []) ∧
    (messageCreate lmErr botId9 emptyDB 0 msgBareBang =
       ⟨dbAfterUserTurn emptyDB 0 msgBareBang, [], false, none, none⟩ ∧
     (dbAfterUserTurn emptyDB 0 msgBareBang).messages =
       emptyDB.messages ++ [ mkUserTurn emptyDB 0 msgBareBang ]) :=
  ⟨⟨rfl, rfl, by decide⟩,
   messageCreate_empty_userText_aborts lmErr botId9 emptyDB 0 msgBareBang rfl rfl (by decide)⟩

/-- C1 (amended): when the reply succeeded but the summarization capability
call inside the memory update fails, the stored summary is left unchanged
and the user and assistant turns are retained, the handler terminates
normally, and the error is logged — but, because upsertUserSummary is
awaited inside the same try block as the reply, the failure reaches the
top-level catch, which also sends the fixed apology to the channel after
the already-delivered reply. -/
theorem messageCreate_summary_failure (lm : LMFun) (botId : Str) (db : DB) (now : Nat)
    (msg : Msg) (rep : Str) (hb : msg.authorBot = false) (ha : isAddressed msg = true)
    (hne : cleanUserText botId msg.content ≠ [])
    (hgen : generateReply lm (dbAfterUserTurn db now msg) msg.channelId msg.authorId
      (cleanUserText botId msg.content) = Except.ok rep)
    (hsum : upsertUserSummary lm (dbAfterAssistantTurn db now msg botId rep) now
      msg.authorId msg.content = Except.error ()) :
    messageCreate lm botId db now msg =
      ⟨dbAfterAssistantTurn db now msg botId rep, [ rep, apologyText ], true,
        some (cleanUserText botId msg.content), some msg.content⟩ ∧
    (dbAfterAssistantTurn db now msg botId rep).userMemory = db.userMemory := by
  constructor
  · rw [messageCreate, if_neg (by simp [hb]), if_neg (by simp [ha]), if_neg hne, hgen]
    dsimp only
    rw [hsum]
  · rfl

def msgMention9 : Msg := ⟨false, none, chanC, userU, "<@9> hi".data, true⟩

/-- Capability that succeeds on the reply call (four prompt messages) and
throws on the summary call (exactly two prompt messages). -/
def lmSummaryFail : LMFun := fun call =>
  if call.messages.length = 2 then Except.error () else Except.ok ⟨[ ⟨some replyYo⟩ ]⟩

/-- C1 counterexample: a run in which the reply was generated and sent
successfully and only the summarization call failed, yet the fixed apology
is sent to the channel after the reply (sent = [reply, apology]) and the
error is logged — refuting the claim that no apology or error message is
sent in this situation (the summary itself is indeed left unchanged). -/
theorem messageCreate_summary_failure_counterexample :
    (messageCreate lmSummaryFail botId9 emptyDB 0 msgMention9).sent = [ replyYo, apologyText ] ∧
    (messageCreate lmSummaryFail botId9 emptyDB 0 msgMention9).logged = true ∧
    (messageCreate lmSummaryFail botId9 emptyDB 0 msgMention9).db.userMemory =
      emptyDB.userMemory := by
  decide

/-- C1 witness: the amended theorem applied to the concrete run above. -/
theorem messageCreate_summary_failure_witness :
    (msgMention9.authorBot = false ∧ isAddressed msgMention9 = true ∧
     cleanUserText botId9 msgMention9.content ≠ [] ∧
     generateReply lmSummaryFail (dbAfterUserTurn emptyDB 0 msgMention9) msgMention9.channelId
       msgMention9.authorId (cleanUserText botId9 msgMention9.content) = Except.ok replyYo ∧
     upsertUserSummary lmSummaryFail (dbAfterAssistantTurn emptyDB 0 msgMention9 botId9 replyYo)
       0 msgMention9.authorId msgMention9.content = Except.error ()) ∧
    (messageCreate lmSummaryFail botId9 emptyDB 0 msgMention9 =
       ⟨dbAfterAssistantTurn emptyDB 0 msgMention9 botId9 replyYo, [ replyYo, apologyText ], true,
         some (cleanUserText botId9 msgMention9.content), some msgMention9.content⟩ ∧
     (dbAfterAssistantTurn emptyDB 0 msgMention9 botId9 replyYo).userMemory =
       emptyDB.userMemory) :=
  ⟨⟨rfl, rfl, by decide, rfl, rfl⟩,
   messageCreate_summary_failure lmSummaryFail botId9 emptyDB 0 msgMention9 replyYo rfl rfl
     (by decide) rfl rfl⟩

/-- C9 (amended): generateReply propagates an error to the orchestrator
exactly when the capability call throws, returns no completion (empty
choices, on which the JS property access throws), or returns a null
content; when the first completion carries text, generateReply returns the
trimmed text even when that text trims to the empty string — it does not
raise in the empty-text case. -/
theorem generateReply_error_iff (lm : LMFun) (db : DB) (c u ut : Str) :
    generateReply lm db c u ut = Except.error () ↔
      (lm (replyCall db c u ut) = Except.error () ∨
       ∃ r, lm (replyCall db c u ut) = Except.ok r ∧
         (r.choices.head? = none ∨
          ∃ ch, r.choices.head? = some ch ∧ ch.content = none)) := by
  rcases hl : lm (replyCall db c u ut) with e | r
  · cases e
    rw [generateReply, hl]
    simp
  · rw [generateReply, hl]
    dsimp only
    rcases hh : r.choices.head? with _ | ch
    · have hnil : r.choices = [] := List.head?_eq_none_iff.1 hh
      simp [hh, hnil]
    · have hcne : r.choices ≠ [] := by
        intro h0
        rw [h0] at hh
        cases hh
      dsimp only
      rcases hc : ch.content with _ | s
      · simp [hh, hc, hcne]
      · simp [hh, hc, hcne]

def lmSpaces : LMFun := fun _ => Except.ok ⟨[ ⟨some ( "   ".data )⟩ ]⟩

/-- C9 counterexample: the capability call succeeds and returns a completion
whose text is whitespace only, and generateReply returns the empty string
as a successful value instead of raising an error — refuting the claim that
it never silently returns empty text when the completion carries no usable
text. -/
theorem generateReply_empty_counterexample :
    lmSpaces (replyCall emptyDB chanC userU ( "hi".data )) =
      Except.ok ⟨[ ⟨some ( "   ".data )⟩ ]⟩ ∧
    generateReply lmSpaces emptyDB chanC userU ( "hi".data ) = Except.ok ([] : Str) :=
  ⟨rfl, rfl⟩

/-- C10: the cleaning step removes only the leading prefix marker (with its
following whitespace) and only the first occurrence of the plain mention
token.  For a message made addressed purely by a nickname-form mention
(no leading prefix marker and no plain-form token in the content), the
cleaning is just a trim: the resulting userText still contains the
nickname-form mention token, is non-empty, is exactly what the handler
passes to generateReply, and becomes the final user message of the prompt.
Concretely, with bot id 7: a doubled plain mention loses only its first
occurrence, and a leading prefix marker loses only itself and its trailing
whitespace. -/
theorem mention_cleaning_spec (lm : LMFun) (botId : Str) (db : DB) (now : Nat) (msg : Msg)
    (hb : msg.authorBot = false) (hm : msg.mentionsBot = true)
    (hid : ∀ c ∈ botId, isWs c = false)
    (hbang : startsBang msg.content = false)
    (hplain : ¬ plainMention botId <:+: msg.content)
    (hnick : nickMention botId <:+: msg.content) :
    cleanUserText botId msg.content = jsTrim msg.content ∧
    nickMention botId <:+: cleanUserText botId msg.content ∧
    cleanUserText botId msg.content ≠ [] ∧
    (messageCreate lm botId db now msg).generateInput =
      some (cleanUserText botId msg.content) ∧
    (replyPrompt (dbAfterUserTurn db now msg) msg.channelId msg.authorId
        (cleanUserText botId msg.content)).getLast? =
      some ⟨PRole.user, cleanUserText botId msg.content⟩ ∧
    cleanUserText botId7 ( "<@7> <@7> hi".data ) = "<@7> hi".data ∧
    plainMention botId7 <:+: cleanUserText botId7 ( "<@7> <@7> hi".data ) ∧
    cleanUserText botId7 ( "!  hello".data ) = "hello".data := by
  have hclean : cleanUserText botId msg.content = jsTrim msg.content := by
    rw [cleanUserText, stripBang_eq_self hbang, replaceFirst_eq_self hplain]
  have hinf : nickMention botId <:+: cleanUserText botId msg.content := by
    rw [hclean]
    exact infix_jsTrim (nickMention_ne_nil botId) (nickMention_not_ws hid) hnick
  have hne : cleanUserText botId msg.content ≠ [] := by
    intro h0
    rw [h0] at hinf
    exact nickMention_ne_nil botId (List.infix_nil.1 hinf)
  refine ⟨hclean, hinf, hne, ?_, replyPrompt_getLast _ _ _ _, by decide, by decide, by decide⟩
  rw [messageCreate, if_neg (by simp [hb]), if_neg (by simp [isAddressed, hm]), if_neg hne]
  cases hgen : generateReply lm (dbAfterUserTurn db now msg) msg.channelId msg.authorId
      (cleanUserText botId msg.content) with
  | error e => rfl
  | ok rep =>
    dsimp only
    cases hup : upsertUserSummary lm (dbAfterAssistantTurn db now msg botId rep) now
        msg.authorId msg.content with
    | error e => rfl
    | ok p => rfl

def msgNick7 : Msg := ⟨false, none, chanC, userU, "<@!7> yo".data, true⟩

/-- C10 witness: a concrete message addressed only through the nickname-form
mention token. -/
theorem mention_cleaning_spec_witness :
    (msgNick7.authorBot = false ∧ msgNick7.mentionsBot = true ∧
     (∀ c ∈ botId7, isWs c = false) ∧
     startsBang msgNick7.content = false ∧
     ¬ plainMention botId7 <:+: msgNick7.content ∧
     nickMention botId7 <:+: msgNick7.content) ∧
    (cleanUserText botId7 msgNick7.content = jsTrim msgNick7.content ∧
     nickMention botId7 <:+: cleanUserText botId7 msgNick7.content ∧
     cleanUserText botId7 msgNick7.content ≠ [] ∧
     (messageCreate lmErr botId7 emptyDB 0 msgNick7).generateInput =
       some (cleanUserText botId7 msgNick7.content) ∧
     (replyPrompt (dbAfterUserTurn emptyDB 0 msgNick7) msgNick7.channelId msgNick7.authorId
         (cleanUserText botId7 msgNick7.content)).getLast? =
       some ⟨PRole.user, cleanUserText botId7 msgNick7.content⟩ ∧
     cleanUserText botId7 ( "<@7> <@7> hi".data ) = "<@7> hi".data ∧
     plainMention botId7 <:+: cleanUserText botId7 ( "<@7> <@7> hi".data ) ∧
     cleanUserText botId7 ( "!  hello".data ) = "hello".data) :=
  ⟨⟨rfl, rfl, by decide, by decide, by decide, by decide⟩,
   mention_cleaning_spec lmErr botId7 emptyDB 0 msgNick7 rfl rfl (by decide) (by decide)
     (by decide) (by decide)⟩
